import Mathlib

/-!
Verification development for the Manchester Baby emulator (baby.go, final
variant of the source).  The instruction codec, the execution engine and the
text parser / program loader are embedded shallowly:

- Go int32 values are modelled as Int, with explicit two's-complement
  wrapping (wrap32) wherever Go arithmetic can wrap, and bit operations
  performed on the 32-bit unsigned pattern (toUn / toSigned).
- A Go runtime panic (out-of-range array index) is modelled as Option.none
  for Step, and as the GoRes.crash outcome for the parser.
- File reading is an external collaborator: loadProgram here receives the
  list of lines of the program file (the result of splitting on newline,
  exactly as the Go code does after os.ReadFile).
-/

/-- Two's-complement signed reading of a 32-bit pattern (Go int32 view). -/
def toSigned (n : Nat) : Int :=
  if n % 2 ^ 32 < 2 ^ 31 then ((n % 2 ^ 32 : Nat) : Int)
  else ((n % 2 ^ 32 : Nat) : Int) - 2 ^ 32

/-- 32-bit unsigned pattern of an Int (two's complement, Go uint32 view). -/
def toUn (i : Int) : Nat := (i % 2 ^ 32).toNat

/-- Go int32 wraparound of an integer result. -/
def wrap32 (i : Int) : Int := toSigned (toUn i)

/-- Number of memory words of the machine (const words = 32 in the source). -/
def words : Nat := 32

/-- memory is [words]int32 in the source; modelled as a list of 32 words. -/
abbrev memory := List Int

/-- bits.Reverse32: reverse the 32-bit pattern of an unsigned word. -/
def reverse32 (n : Nat) : Nat :=
  (List.range 32).foldl (fun acc k => acc + (if n.testBit k then 2 ^ (31 - k) else 0)) 0

/-- struct instruction of the source: op and data fields, both int32. -/
structure instruction where
  op : Int
  data : Int
deriving DecidableEq

/-- func (i *instruction) toInt32: 0 | (i.op << 13) | i.data, on int32. -/
def instruction.toInt32 (i : instruction) : Int :=
  toSigned (((toUn i.op <<< 13) % 2 ^ 32) ||| toUn i.data)

/-- func instFromWord: op = (word & 0x0000E000) >> 13, data = word & 0x0000001F. -/
def instFromWord (word : Int) : instruction :=
  ⟨(((toUn word &&& 0xE000) >>> 13 : Nat) : Int), ((toUn word &&& 0x1F : Nat) : Int)⟩

/-- struct baby of the source: memory, ci and acc registers, running flag. -/
structure baby where
  mem : memory
  ci : Int
  acc : Int
  running : Bool
deriving DecidableEq

/-- func NewBaby(mem memory): running true, ci and acc at their zero value 0. -/
def NewBaby (mem : memory) : baby := ⟨mem, 0, 0, true⟩

/-- Memory read at a register value (Go array index; callers establish
0 <= i < 32 before using it, exactly where the Go index cannot panic). -/
def memGet (m : memory) (i : Int) : Int := m.getD i.toNat 0

/-- func (b *baby) Step: pre-increment ci, fetch, decode, execute one
instruction.  The fetch b.mem[b.ci] panics in Go when the incremented ci is
outside [0,31]; that outcome is modelled as none.  The switch has cases for
opcodes 0 (JMP), 4 (SUB), 6 (CMP), 2 (LDN), 1 (JRP), 3 (STO) and 7 (STP);
opcode 5 (SUB2) matches no case and falls through to no operation. -/
def Step : baby → Option baby
  | ⟨mem, ci, acc, r⟩ =>
    let ci1 := wrap32 (ci + 1)
    if 0 ≤ ci1 ∧ ci1 < 32 then
      let inst := instFromWord (memGet mem ci1)
      some (if inst.op = 0 then ⟨mem, memGet mem inst.data, acc, r⟩
        else if inst.op = 4 then ⟨mem, ci1, wrap32 (acc - memGet mem inst.data), r⟩
        else if inst.op = 6 then ⟨mem, if acc < 0 then wrap32 (ci1 + 1) else ci1, acc, r⟩
        else if inst.op = 2 then ⟨mem, ci1, wrap32 (-(memGet mem inst.data)), r⟩
        else if inst.op = 1 then ⟨mem, wrap32 (ci1 + memGet mem inst.data), acc, r⟩
        else if inst.op = 3 then ⟨mem.set inst.data.toNat acc, ci1, acc, r⟩
        else if inst.op = 7 then ⟨mem, ci1, acc, false⟩
        else ⟨mem, ci1, acc, r⟩)
    else none

/-- The error values of the source (missingOp, badEntry, extraOp, badAddress,
badMemory, badOperand, badInstruction). -/
inductive PErr where
  | missingOp | badEntry | extraOp | badAddress | badMemory | badOperand | badInstruction
deriving DecidableEq

/-- Outcome of a Go parsing function: a value, a returned error, or a
runtime crash (index-out-of-range panic). -/
inductive GoRes (α : Type) where
  | ok (a : α)
  | err (e : PErr)
  | crash
deriving DecidableEq

/-- Helper for strings.SplitN with a one-character separator: split off the
part before the first occurrence of the separator, if any. -/
def splitFirst : List Char → Char → Option (List Char × List Char)
  | [], _ => none
  | c :: cs, sep =>
    if c = sep then some ([], cs)
    else
      match splitFirst cs sep with
      | none => none
      | some (a, b) => some (c :: a, b)

/-- strings.SplitN(s, sep, n) for a one-character separator: at most n
parts, the last part keeps the remainder unsplit. -/
def splitNChar (sep : Char) : Nat → List Char → List (List Char)
  | 0, _ => []
  | 1, s => [s]
  | n + 2, s =>
    match splitFirst s sep with
    | none => [s]
    | some (a, b) => a :: splitNChar sep (n + 1) b

/-- One step of decimal-digit accumulation (strconv parsing). -/
def decStep (acc : Option Nat) (c : Char) : Option Nat :=
  match acc with
  | none => none
  | some v => if c.isDigit then some (10 * v + (c.toNat - 48)) else none

/-- One step of binary-digit accumulation (strconv parsing, base 2). -/
def binStep (acc : Option Nat) (c : Char) : Option Nat :=
  match acc with
  | none => none
  | some v =>
    if c = '0' then some (2 * v) else if c = '1' then some (2 * v + 1) else none

/-- Total value of a binary digit string (defined for well-formed inputs;
used to state what parseUint2 returns on them). -/
def bitStep (v : Nat) (c : Char) : Nat := 2 * v + (if c = '1' then 1 else 0)

def bitsVal (s : List Char) : Nat := s.foldl bitStep 0

/-- strconv.ParseUint(s, 10, 32): digits only, non-empty, value below 2^32. -/
def parseUint10 (s : List Char) : Option Nat :=
  if s = [] then none
  else
    match s.foldl decStep (some 0) with
    | none => none
    | some v => if v < 2 ^ 32 then some v else none

/-- strconv.ParseUint(s, 2, 32): binary digits only, non-empty, value below 2^32. -/
def parseUint2 (s : List Char) : Option Nat :=
  if s = [] then none
  else
    match s.foldl binStep (some 0) with
    | none => none
    | some v => if v < 2 ^ 32 then some v else none

/-- strconv.Atoi: optional sign, decimal digits, 64-bit signed range. -/
def atoiCore (neg : Bool) (l : List Char) : Option Int :=
  if l = [] then none
  else
    match l.foldl decStep (some 0) with
    | none => none
    | some v =>
      if neg then (if v ≤ 2 ^ 63 then some (-(v : Int)) else none)
      else (if v < 2 ^ 63 then some (v : Int) else none)

def atoi : List Char → Option Int
  | '-' :: rest => atoiCore true rest
  | '+' :: rest => atoiCore false rest
  | l => atoiCore false l

/-- The nameOps map of the source: mnemonic to opcode (SUB2 has no name). -/
def nameOps (s : List Char) : Option Int :=
  if s = "JMP".toList then some 0
  else if s = "JRP".toList then some 1
  else if s = "LDN".toList then some 2
  else if s = "STO".toList then some 3
  else if s = "SUB".toList then some 4
  else if s = "CMP".toList then some 6
  else if s = "STP".toList then some 7
  else none

/-- func instructionFromCode: parse an assembly line ADDRESS MNEMONIC
[OPERAND].  SplitN(code, space, 3); address via ParseUint(-,10,32) checked
against words; then the switch on parts[1] indexes parts[1] without a
length check, a runtime panic (crash) when the line has a single token. -/
def instructionFromCode (code : String) : GoRes (Nat × instruction) :=
  let parts := splitNChar ' ' 3 code.toList
  match parseUint10 (parts.getD 0 []) with
  | none => .err .badAddress
  | some n =>
    if words ≤ n then .err .badAddress
    else if parts.length < 2 then .crash
    else
      let p1 := parts.getD 1 []
      if p1 = "CMP".toList ∨ p1 = "STP".toList then
        if 2 < parts.length then .err .extraOp
        else .ok (n, ⟨if p1 = "CMP".toList then 6 else 7, 0⟩)
      else if parts.length < 3 then .err .missingOp
      else
        match atoi (parts.getD 2 []) with
        | none => .err .badOperand
        | some operand =>
          if p1 = "NUM".toList then .ok (n, ⟨0, wrap32 operand⟩)
          else
            match nameOps p1 with
            | none => .err .badInstruction
            | some op => .ok (n, ⟨op, wrap32 operand⟩)

/-- func memFromBin: parse a binary line ADDRESS:BITS.  SplitN(code, colon,
2); address via ParseUint(-,10,32) checked against words; bits via
ParseUint(-,2,32); the parsed value is bit-reversed (bits.Reverse32) and
reinterpreted as a signed word. -/
def memFromBin (code : String) : GoRes (Nat × Int) :=
  let parts := splitNChar ':' 2 code.toList
  if parts.length < 2 then .err .badEntry
  else
    match parseUint10 (parts.getD 0 []) with
    | none => .err .badAddress
    | some n =>
      if words ≤ n then .err .badAddress
      else
        match parseUint2 (parts.getD 1 []) with
        | none => .err .badMemory
        | some i => .ok (n, toSigned (reverse32 i))

/-- One non-blank line of loadProgram: binary form when the line contains a
colon, assembly form otherwise (the assembly word is inst.toInt32()). -/
def parseLine (line : String) : GoRes (Nat × Int) :=
  if ':' ∈ line.toList then memFromBin line
  else
    match instructionFromCode line with
    | .ok (n, i) => .ok (n, i.toInt32)
    | .err e => .err e
    | .crash => .crash

/-- The loop of func loadProgram over the lines, carrying the 0-based index
and the memory image built so far.  Blank lines are skipped; the first
error aborts, returning the memory written so far together with the
1-based line number; a parser crash propagates (none). -/
def loadAux : List String → Nat → memory → Option (memory × Option (Nat × PErr))
  | [], _, m => some (m, none)
  | line :: rest, i, m =>
    if line = "" then loadAux rest (i + 1) m
    else
      match parseLine line with
      | .crash => none
      | .err e => some (m, some (i + 1, e))
      | .ok (n, w) => loadAux rest (i + 1) (m.set n w)

/-- func loadProgram on the list of lines of the program file: a fresh
zeroed memory image, then the line loop. -/
def loadProgram (lines : List String) : Option (memory × Option (Nat × PErr)) :=
  loadAux lines 0 (List.replicate words 0)

/-- Memory image of the three-word program JMP 2, STP, JMP 5 at addresses
0, 1, 2, the remaining words zero (as the loader leaves them). -/
def memC1 : memory :=
  instruction.toInt32 ⟨0, 2⟩ :: instruction.toInt32 ⟨7, 0⟩ ::
    instruction.toInt32 ⟨0, 5⟩ :: List.replicate 29 0

/-- Word with opcode field 5 (the second Subtract encoding) and operand 2. -/
def wordSub2 : Int := instruction.toInt32 ⟨5, 2⟩

/-- Word with opcode field 4 (the canonical Subtract encoding) and operand 2. -/
def wordSub : Int := instruction.toInt32 ⟨4, 2⟩

/-- Image with the opcode-5 word at address 1 and the data word 7 at address 2. -/
def memC3 : memory := 0 :: wordSub2 :: 7 :: List.replicate 29 0

/-- Image with the opcode-4 word at address 1 and the data word 7 at address 2. -/
def memC3b : memory := 0 :: wordSub :: 7 :: List.replicate 29 0

/-- Halted-state image for C5: address 0 holds 7, address 1 holds 0 (a JMP 0). -/
def memC5 : memory := 7 :: 0 :: List.replicate 30 0

/-- Projection of a machine state without its running flag. -/
def view (b : baby) : memory × Int × Int := (b.mem, b.ci, b.acc)

example : instruction.toInt32 ⟨0, 2⟩ = 2 := by decide
example : instruction.toInt32 ⟨7, 0⟩ = 57344 := by decide
example : instFromWord 57344 = ⟨7, 0⟩ := by decide
example : memFromBin "0001:11011000000000100000000010000000" = .ok (1, 16793627) := by decide
example : memFromBin "0030:10000000000000000000000000000000" = .ok (30, 1) := by decide
example : memFromBin "0022:00000000000000000000000000000001" = .ok (22, -2147483648) := by decide
example : memFromBin "0032:11011000000000100000000010000000" = .err .badAddress := by decide
example : memFromBin "0031:21011000000000100000000010000000" = .err .badMemory := by decide
example : memFromBin "" = .err .badEntry := by decide
example : instructionFromCode "0010 JMP 22" = .ok (10, ⟨0, 22⟩) := by decide
example : instructionFromCode "0003 CMP" = .ok (3, ⟨6, 0⟩) := by decide
example : instructionFromCode "0023 NUM 10" = .ok (23, ⟨0, 10⟩) := by decide
example : instructionFromCode "0000 CMP 21" = .err .extraOp := by decide
example : instructionFromCode "0000 JMP" = .err .missingOp := by decide
example : instructionFromCode "-1 JMP 22" = .err .badAddress := by decide
example : instructionFromCode "0032 JMP 22" = .err .badAddress := by decide
example : instructionFromCode "" = .err .badAddress := by decide
example : instructionFromCode "0000 BAD 21" = .err .badInstruction := by decide
example : instructionFromCode "0000 21 BAD" = .err .badOperand := by decide
example : instructionFromCode "0000 21 21" = .err .badInstruction := by decide

/-- C1 counterexample: on the machine freshly constructed from the image
[JMP 2, STP, JMP 5], the running flag is already false after the FIRST
Step, so the machine does not halt after exactly two Steps as claimed: the
counter pre-increments from its initial value 0 to 1 and fetches the STP
at address 1 directly, and the JMP at address 0 never executes. -/
theorem C1_counterexample :
    Option.map baby.running (Step (NewBaby memC1)) = some false := by decide

/-- C1 amended: a freshly constructed machine loaded with [JMP 2, STP,
JMP 5] at addresses 0, 1, 2 starts running and halts after exactly one
Step, reaching the state with ci = 1 and everything else unchanged. -/
theorem C1_halts_after_one_step :
    (NewBaby memC1).running = true ∧ Step (NewBaby memC1) = some ⟨memC1, 1, 0, false⟩ := by
  decide

/-- C2 counterexample: at the concrete state with program counter 31, the
pre-incremented counter 32 lies outside [0,31] and Step produces the
out-of-range fetch (a Go runtime panic, modelled as none); no
RunawayProgramCounter fault value exists anywhere in the code, so no
explicit runaway error is reported. -/
theorem C2_counterexample :
    Step ⟨List.replicate 32 0, 31, 0, true⟩ = none := by decide

/-- C2 amended: for every machine state whose program counter after the
pre-increment of Step lies outside [0,31], Step reports nothing at all:
the fetch indexes the 32-word array out of range (a runtime panic,
modelled as none); the code defines no runaway fault. -/
theorem C2_no_runaway_fault (m : memory) (c a : Int) (r : Bool)
    (h : ¬ (0 ≤ wrap32 (c + 1) ∧ wrap32 (c + 1) < 32)) :
    Step ⟨m, c, a, r⟩ = none := by
  simp only [Step]
  rw [if_neg h]

theorem C2_no_runaway_fault_witness :
    ¬ (0 ≤ wrap32 ((100 : Int) + 1) ∧ wrap32 ((100 : Int) + 1) < 32) ∧
      Step ⟨List.replicate 32 0, 100, 0, true⟩ = none :=
  ⟨by decide, C2_no_runaway_fault (List.replicate 32 0) 100 0 true (by decide)⟩

/-- C3: a word whose opcode field is 5 decodes to op 5 (not folded to the
canonical Subtract opcode 4), and executing it changes nothing but the
pre-incremented counter: with accumulator 10 and memory word 7 at the
operand address, the accumulator stays 10, while the same instruction
encoded with opcode 4 subtracts and yields 3.  The code thus executes the
second Subtract encoding as a silent no-op, contradicting its own opcode
table, which lists both encodings 4 and 5 as Subtract. -/
theorem C3_sub2_is_noop :
    (instFromWord wordSub2).op = 5 ∧
      Step ⟨memC3, 0, 10, true⟩ = some ⟨memC3, 1, 10, true⟩ ∧
      Step ⟨memC3b, 0, 10, true⟩ = some ⟨memC3b, 1, 3, true⟩ := by decide

/-- C4 counterexample: loading the two lines 0000 JMP 5 and 0001 XYZ 1
aborts on line 2 with badInstruction, but the memory image handed back
together with the error already holds the word 5 written by line 1 at
address 0: a partial memory image is returned to the caller. -/
theorem C4_counterexample :
    loadProgram ["0000 JMP 5", "0001 XYZ 1"] =
      some ((5 : Int) :: List.replicate 31 0, some (2, PErr.badInstruction)) ∧
      List.getD ((5 : Int) :: List.replicate 31 0) 0 0 ≠ (0 : Int) := by decide

/-- C4 amended: when the loader meets its first malformed line it aborts
immediately (the remaining lines are never processed), surfaces the
parser error annotated with the 1-based line number, and returns the
partially written memory image built so far alongside that error. -/
theorem C4_aborts_on_first_error (m : memory) (i : Nat) (e : PErr) (line : String)
    (rest : List String) (hne : line ≠ "") (hp : parseLine line = .err e) :
    loadAux (line :: rest) i m = some (m, some (i + 1, e)) := by
  simp [loadAux, hne, hp]

theorem C4_aborts_on_first_error_witness :
    (("0000 XYZ 1" : String) ≠ "" ∧ parseLine "0000 XYZ 1" = .err PErr.badInstruction) ∧
      loadAux ["0000 XYZ 1"] 0 (List.replicate 32 0) =
        some (List.replicate 32 0, some (0 + 1, PErr.badInstruction)) :=
  ⟨⟨by decide, by decide⟩,
    C4_aborts_on_first_error (List.replicate 32 0) 0 PErr.badInstruction
      "0000 XYZ 1" [] (by decide) (by decide)⟩

/-- C5 counterexample: at the concrete halted state (running false) with
ci 0 and memory 7 at address 0 and a JMP 0 word at address 1, calling Step
changes the program counter from 0 to 7: Step never consults the running
flag, so a halted machine is not left unchanged. -/
theorem C5_counterexample :
    Step ⟨memC5, 0, 0, false⟩ = some ⟨memC5, 7, 0, false⟩ ∧
      (⟨memC5, 0, 0, false⟩ : baby).ci = 0 := by decide

/-- C5 amended: Step does not consult the running flag: on any memory,
counter and accumulator, the memory, counter and accumulator produced by
Step are identical whether the machine is halted or running (the flag is
checked only by the Run loop, which stops calling Step once it is false). -/
theorem C5_step_ignores_running (m : memory) (c a : Int) :
    Option.map view (Step ⟨m, c, a, false⟩) = Option.map view (Step ⟨m, c, a, true⟩) := by
  simp only [Step]
  split_ifs <;> simp [view]

/-- C6 counterexample: the line 0000 JMP 999, whose operand 999 lies
outside [0,31], parses without any error: instructionFromCode accepts it
and stores the out-of-range operand unchanged. -/
theorem C6_counterexample :
    instructionFromCode "0000 JMP 999" = .ok (0, ⟨0, 999⟩) := by decide

theorem splitFirst_append (pre : List Char) (sep : Char) (post : List Char)
    (h : sep ∉ pre) : splitFirst (pre ++ sep :: post) sep = some (pre, post) := by
  induction pre with
  | nil => simp [splitFirst]
  | cons c cs ih =>
    have hc : ¬ c = sep := by
      intro hcs
      exact h (by simp [hcs])
    have hcs : sep ∉ cs := fun hm => h (by simp [hm])
    simp [splitFirst, hc, ih hcs]

theorem splitN2 (sep : Char) (s a b : List Char) (h : splitFirst s sep = some (a, b)) :
    splitNChar sep 2 s = [a, b] := by
  show (match splitFirst s sep with
    | none => [s]
    | some (a, b) => a :: splitNChar sep 1 b) = [a, b]
  rw [h]
  rfl

theorem splitN3 (sep : Char) (s a b c d : List Char) (h1 : splitFirst s sep = some (a, b))
    (h2 : splitFirst b sep = some (c, d)) : splitNChar sep 3 s = [a, c, d] := by
  show (match splitFirst s sep with
    | none => [s]
    | some (p, q) => p :: splitNChar sep 2 q) = [a, c, d]
  rw [h1]
  show a :: splitNChar sep 2 b = [a, c, d]
  rw [splitN2 sep b c d h2]

/-- C6 amended: instructionFromCode performs no range check on the operand
token.  For every assembly line ADDRESS MNEMONIC OPERAND built from a
valid address token, an operand-taking mnemonic, and any operand token
that parses as an integer v (in particular every v outside [0,31], such
as 999), parsing succeeds and the instruction stores the operand as
parsed, wrapped only to int32; only the address token is range-checked. -/
theorem C6_operand_not_range_checked (a m t : List Char) (n : Nat) (op v : Int)
    (ha : parseUint10 a = some n) (hn : n < words) (hsa : ' ' ∉ a) (hsm : ' ' ∉ m)
    (hm : nameOps m = some op)
    (hcmp : ¬ (m = "CMP".toList ∨ m = "STP".toList)) (hnum : m ≠ "NUM".toList)
    (hv : atoi t = some v) :
    instructionFromCode (String.mk (a ++ ' ' :: (m ++ ' ' :: t))) =
      .ok (n, ⟨op, wrap32 v⟩) := by
  have h1 : splitFirst (a ++ ' ' :: (m ++ ' ' :: t)) ' ' = some (a, m ++ ' ' :: t) :=
    splitFirst_append a ' ' (m ++ ' ' :: t) hsa
  have h2 : splitFirst (m ++ ' ' :: t) ' ' = some (m, t) := splitFirst_append m ' ' t hsm
  have h3 : splitNChar ' ' 3 (a ++ ' ' :: (m ++ ' ' :: t)) = [a, m, t] :=
    splitN3 ' ' _ _ _ _ _ h1 h2
  have hn' : ¬ (words ≤ n) := by omega
  have hcmp' : ¬ (m = ['C', 'M', 'P'] ∨ m = ['S', 'T', 'P']) := hcmp
  have hnum' : m ≠ ['N', 'U', 'M'] := hnum
  simp [instructionFromCode, h3, ha, hn', hcmp', hnum', hm, hv]

theorem C6_operand_not_range_checked_witness :
    (parseUint10 ['0', '0', '0', '0'] = some 0 ∧ (0 : Nat) < words ∧
        ' ' ∉ (['0', '0', '0', '0'] : List Char) ∧ ' ' ∉ (['J', 'M', 'P'] : List Char) ∧
        nameOps ['J', 'M', 'P'] = some 0 ∧
        ¬ ((['J', 'M', 'P'] : List Char) = "CMP".toList ∨
            (['J', 'M', 'P'] : List Char) = "STP".toList) ∧
        (['J', 'M', 'P'] : List Char) ≠ "NUM".toList ∧
        atoi ['9', '9', '9'] = some 999) ∧
      instructionFromCode
          (String.mk (['0', '0', '0', '0'] ++ ' ' :: (['J', 'M', 'P'] ++ ' ' :: ['9', '9', '9']))) =
        .ok (0, ⟨0, wrap32 999⟩) :=
  ⟨⟨by decide, by decide, by decide, by decide, by decide, by decide, by decide, by decide⟩,
    C6_operand_not_range_checked ['0', '0', '0', '0'] ['J', 'M', 'P'] ['9', '9', '9'] 0 0 999
      (by decide) (by decide) (by decide) (by decide) (by decide) (by decide) (by decide)
      (by decide)⟩

/-- C7: the line 0000, a valid address token with no mnemonic, does not
yield an error result: the switch on the second token indexes past the end
of the split (a Go index-out-of-range panic, modelled as crash), so the
parser crashes instead of returning the distinct error value the code
defines for malformed lines. -/
theorem C7_crash_on_bare_address :
    instructionFromCode "0000" = GoRes.crash := by decide

/-- C8 counterexample: the binary line 0001:1, whose bit string has width
1 rather than 32, is accepted by memFromBin with no BadMemory error: the
single set bit is reversed into the sign bit, storing -2147483648. -/
theorem C8_counterexample :
    memFromBin "0001:1" = .ok (1, -2147483648) := by decide

/-- C9: for every opcode value 0..7 of the instruction set and every
operand in [0,31], decoding the encoded instruction gives the instruction
back: instFromWord (toInt32 (op, data)) = (op, data). -/
theorem C9_decode_encode (op : Nat) (hop : op < 8) (d : Nat) (hd : d < 32) :
    instFromWord (instruction.toInt32 ⟨(op : Int), (d : Int)⟩) = ⟨(op : Int), (d : Int)⟩ := by
  have h : ∀ op : Nat, op < 8 → ∀ d : Nat, d < 32 →
      instFromWord (instruction.toInt32 ⟨(op : Int), (d : Int)⟩) = ⟨(op : Int), (d : Int)⟩ := by
    decide
  exact h op hop d hd

theorem C9_decode_encode_witness :
    (4 : Nat) < 8 ∧ (21 : Nat) < 32 ∧
      instFromWord (instruction.toInt32 ⟨(4 : Int), (21 : Int)⟩) = ⟨(4 : Int), (21 : Int)⟩ :=
  ⟨by decide, by decide, C9_decode_encode 4 (by decide) 21 (by decide)⟩

/-- C10: binary-line parsing bit-reverses the parsed unsigned value before
storing it as a signed word: 31 ones followed by a zero stores 2147483647
(the maximal signed 32-bit word), and all 32 bits set stores -1. -/
theorem C10_bit_reversal :
    memFromBin "0031:11111111111111111111111111111110" = .ok (31, 2147483647) ∧
      memFromBin "0031:11111111111111111111111111111111" = .ok (31, -1) := by decide

theorem binFold (bs : List Char) (hd : ∀ c ∈ bs, c = '0' ∨ c = '1') (v : Nat) :
    bs.foldl binStep (some v) = some (bs.foldl bitStep v) := by
  induction bs generalizing v with
  | nil => rfl
  | cons c cs ih =>
    have hcs : ∀ x ∈ cs, x = '0' ∨ x = '1' := fun x hx => hd x (by simp [hx])
    rcases hd c (by simp) with h | h <;> subst h <;>
      simp [List.foldl_cons, binStep, bitStep, ih hcs]

theorem parseUint2_digits (bs : List Char) (hne : bs ≠ [])
    (hd : ∀ c ∈ bs, c = '0' ∨ c = '1') (hv : bitsVal bs < 2 ^ 32) :
    parseUint2 bs = some (bitsVal bs) := by
  have hv' : List.foldl bitStep 0 bs < 4294967296 := hv
  simp [parseUint2, hne, binFold bs hd 0, bitsVal, hv']

/-- C8 amended: memFromBin does not check the width of the bit string: any
non-empty string of binary digits whose value fits in 32 bits is accepted,
whatever its length, and the bit-reversed value is stored; BadMemory
arises only from an empty bit string, a non-binary character, or a value
of 33 or more bits. -/
theorem C8_width_not_checked (bs : List Char) (hne : bs ≠ [])
    (hd : ∀ c ∈ bs, c = '0' ∨ c = '1') (hv : bitsVal bs < 2 ^ 32) :
    memFromBin (String.mk ("0001".toList ++ ':' :: bs)) =
      .ok (1, toSigned (reverse32 (bitsVal bs))) := by
  have hsp : splitFirst ((['0', '0', '0', '1'] : List Char) ++ ':' :: bs) ':' =
      some (['0', '0', '0', '1'], bs) :=
    splitFirst_append _ _ _ (by decide)
  have h2 : splitNChar ':' 2 ('0' :: '0' :: '0' :: '1' :: ':' :: bs) =
      [['0', '0', '0', '1'], bs] := splitN2 _ _ _ _ hsp
  have h10 : parseUint10 (['0', '0', '0', '1'] : List Char) = some 1 := by decide
  have hp2 : parseUint2 bs = some (bitsVal bs) := parseUint2_digits bs hne hd hv
  simp [memFromBin, h2, h10, hp2, words]

theorem C8_width_not_checked_witness :
    ((['1'] : List Char) ≠ [] ∧ (∀ c ∈ (['1'] : List Char), c = '0' ∨ c = '1') ∧
        bitsVal ['1'] < 2 ^ 32) ∧
      memFromBin (String.mk ("0001".toList ++ ':' :: ['1'])) =
        .ok (1, toSigned (reverse32 (bitsVal ['1']))) :=
  ⟨⟨by decide, by decide, by decide⟩,
    C8_width_not_checked ['1'] (by decide) (by decide) (by decide)⟩
